/-
Verification of the nffu task engine (lockbox) and the fenetre signup-code
derivation against its natural-language specification.

The Lean definitions below are a shallow embedding of the Python source:
  * `lockbox/lockbox/documents.py`  — document schemas (TaskType, Task, ...)
  * `lockbox/lockbox/scheduler.py`  — the task scheduler (`Scheduler._init`,
    `Scheduler._run_task`, the rate-limit groups)
  * `lockbox/lockbox/tasks.py`      — task handlers (`check_day`, `fill_form`,
    `populate_courses`, `test_fill_form`)
  * `lockbox/lockbox/fieldexpr.py`  — the field-expression language
  * `lockbox/lockbox/ghoster.py`    — the browser driver adapter (`fill_form`)
  * `lockbox/lockbox/db.py`         — `LockboxDB.populate_user_courses`,
    `LockboxDB.get_form_geometry`
  * `fenetre/fenetre/auth.py`       — `generate_signup_code`, `verify_signup_code`

Machine integers are modelled as `Nat`/`Int` (Python integers are unbounded,
so no wrap-around is needed except where the source takes an explicit `%`).
Instants are modelled as seconds since the Unix epoch (`Int`), matching the
source's use of `datetime` arithmetic.  Fallible Python code is modelled with
`Except`/`Option`.
-/
import Mathlib

namespace Nffu

/-! ## Documents: `documents.py`

`TaskType` in `documents.py` declares exactly five members.  (Note:
`scheduler.py` and `db.py` also *reference* `TaskType.GET_FORM_GEOMETRY` and
`TaskType.REMOVE_OLD_FORM_GEOMETRY`, which are not declared; this is modelled
by `TaskType.fromName` returning `none` for those attribute names.) -/

inductive TaskType where
  | FILL_FORM
  | CHECK_DAY
  | POPULATE_COURSES
  | TEST_FILL_FORM
  | REMOVE_OLD_TEST_RESULTS
  deriving DecidableEq, Repr

/-- The `.value` string of each `TaskType` member, as in `documents.py`. -/
def TaskType.value : TaskType → String
  | .FILL_FORM => "fill-form"
  | .CHECK_DAY => "check-day"
  | .POPULATE_COURSES => "populate-courses"
  | .TEST_FILL_FORM => "test-fill-form"
  | .REMOVE_OLD_TEST_RESULTS => "remove-old-test-result"

/-- All members of the `TaskType` enum, in declaration order. -/
def TaskType.members : List TaskType :=
  [.FILL_FORM, .CHECK_DAY, .POPULATE_COURSES, .TEST_FILL_FORM, .REMOVE_OLD_TEST_RESULTS]

/-- Python attribute lookup `TaskType.<name>`: `some` member if declared,
`none` (an `AttributeError` in Python) otherwise. -/
def TaskType.fromName : String → Option TaskType
  | "FILL_FORM" => some .FILL_FORM
  | "CHECK_DAY" => some .CHECK_DAY
  | "POPULATE_COURSES" => some .POPULATE_COURSES
  | "TEST_FILL_FORM" => some .TEST_FILL_FORM
  | "REMOVE_OLD_TEST_RESULTS" => some .REMOVE_OLD_TEST_RESULTS
  | _ => none

/-- A `Task` document (`documents.py`).  `next_run_at` is a UTC instant in
seconds; `owner` and `argument` are irrelevant to the scheduler-level claims
and elided from the state the theorems quantify over. -/
structure TaskDoc where
  kind : TaskType
  next_run_at : Int
  is_running : Bool
  retry_count : Nat
  deriving DecidableEq, Repr

/-! ## Scheduler: `scheduler.py` -/

/-- Outcome of awaiting a task handler inside `Scheduler._run_task`:
the handler returns (a `datetime` or `None`), raises a `TaskError`
(optionally carrying `retry_in` seconds), or raises any other exception. -/
inductive HandlerOutcome where
  | success (next_run : Option Int)
  | taskError (retry_in : Option Int)
  | otherException
  deriving DecidableEq, Repr

/-- What became of the task document after `_run_task`: committed back with
the given contents, or removed from the collection. -/
inductive TaskDisposition where
  | persisted (t : TaskDoc)
  | removed
  deriving DecidableEq, Repr

/-- The rate-limit counter decrement loop of `Scheduler._run_task`
(`for group in TaskTypeGroup.get_groups(...): if group.count > 0:
group.count -= 1 else: log error`).  `γ` indexes the groups; `counts` is the
process-local counter of each group. -/
def decrementGroups {γ : Type} [DecidableEq γ] (gs : List γ) (counts : γ → Nat) : γ → Nat :=
  gs.foldl (fun c g => fun g' => if g' = g then (if c g > 0 then c g - 1 else c g) else c g') counts

/-- Model of `Scheduler._run_task` (scheduler.py lines 108–153), given the task
document (already marked `is_running = true` by the dispatch loop), the
handler's outcome, the current UTC time `now`, the group membership map
`groups` (which groups contain each task kind) and the current counters.
Returns the disposition of the task document and the new counters.

The source first runs the handler; on an unhandled exception it removes the
task and `return`s *before* the counter-decrement loop.  Otherwise it
decrements the counters, then either commits the task with the new
`next_run_at` and `is_running = false`, or removes it. -/
def runTask {γ : Type} [DecidableEq γ] (task : TaskDoc) (outcome : HandlerOutcome)
    (now : Int) (groups : TaskType → List γ) (counts : γ → Nat) :
    TaskDisposition × (γ → Nat) :=
  match outcome with
  | .otherException =>
      -- `except Exception: ... await task.remove(); return`
      (.removed, counts)
  | .success next_run =>
      let task := { task with retry_count := 0 }
      let counts := decrementGroups (groups task.kind) counts
      match next_run with
      | some next =>
          (.persisted { task with next_run_at := next, is_running := false }, counts)
      | none => (.removed, counts)
  | .taskError retry_in =>
      match retry_in with
      | some r =>
          let task := { task with retry_count := task.retry_count + 1 }
          let counts := decrementGroups (groups task.kind) counts
          (.persisted { task with next_run_at := now + r, is_running := false }, counts)
      | none =>
          let counts := decrementGroups (groups task.kind) counts
          (.removed, counts)

/-- The rate-limit group membership written in `Scheduler.__init__`
(scheduler.py lines 76–78): `firefox` (fill-form, test-fill-form, — and a
reference to the undeclared `TaskType.GET_FORM_GEOMETRY`), `tdsb_connects`
(fill-form, check-day, populate-courses, test-fill-form), `global` (all
kinds), restricted to the members `TaskType` actually declares. -/
def lockboxGroups : TaskType → List String
  | .FILL_FORM => ["firefox", "tdsb_connects", "global"]
  | .CHECK_DAY => ["tdsb_connects", "global"]
  | .POPULATE_COURSES => ["tdsb_connects", "global"]
  | .TEST_FILL_FORM => ["firefox", "tdsb_connects", "global"]
  | .REMOVE_OLD_TEST_RESULTS => ["global"]

/-- Model of `Scheduler._init` (scheduler.py lines 97–106): every task found with
`is_running = true` is committed back with `is_running = false` (and a
warning logged); other tasks are untouched.  `Scheduler.start` awaits
`_init` before spawning the main loop. -/
def schedInit (tasks : List TaskDoc) : List TaskDoc :=
  tasks.map fun t => if t.is_running then { t with is_running := false } else t

/-! ## `check_day` (tasks.py lines 72–153): the no-school branch

Instants are seconds since the Unix epoch.  `tzOff` is the UTC offset of
`LOCAL_TZ` in seconds (`local = utc + tzOff`), a parameter because the source
uses the host's local zone (`tz.gettz()`).  In the no-school branch the source
computes

    start = datetime.datetime.now(tz=LOCAL_TZ)
    end   = start.replace(hour=0, minute=0, second=0, microsecond=0)
            + datetime.timedelta(days=1)

converts both to UTC and pushes every FILL_FORM task with
`start <= next_run_at < end` forward by 24 h (the `$gte`/`$lt` Mongo filter
and the `$add` of `24 * 60 * 60 * 1000` ms). -/

/-- UTC instant of the next local midnight strictly after (or at, when `now`
is itself a local midnight) `now`: `start.replace(hour=0, ...) + 1 day`
converted back to UTC. -/
def nextLocalMidnight (tzOff now : Int) : Int :=
  ((now + tzOff).fdiv 86400) * 86400 + 86400 - tzOff

/-- Whether a task document matches the no-school update filter of
`check_day`: kind `FILL_FORM` and `now <= next_run_at < nextLocalMidnight`. -/
def checkDayPushFilter (tzOff now : Int) (t : TaskDoc) : Bool :=
  t.kind = TaskType.FILL_FORM && now ≤ t.next_run_at && t.next_run_at < nextLocalMidnight tzOff now

/-- The no-school branch of `check_day` (tasks.py lines 140–152): set the
process-local `current_day` to `-1` and push the matching fill-form tasks
forward by 24 h.  Returns the new `current_day` and the updated task
collection. -/
def checkDayNoSchool (tzOff now : Int) (tasks : List TaskDoc) : Int × List TaskDoc :=
  (-1, tasks.map fun t =>
    if checkDayPushFilter tzOff now t then { t with next_run_at := t.next_run_at + 86400 } else t)

/-! ## `test_fill_form` (tasks.py lines 717–742) -/

/-- The `FormFillingTest` fields manipulated by `test_fill_form`
(documents.py `FormFillingTest`; `fill_result`/`errors` summarized as an
opaque payload `σ` written by the inner helper). -/
structure FormFillingTestDoc (σ : Type) where
  is_finished : Bool
  in_progress : Bool
  time_executed : Option Int
  payload : σ
  deriving DecidableEq, Repr

/-- Outcome of `await _test_fill_form_inner(db, owner, context)`: the helper
returns a bool after writing `newPayload` into the test document, or raises,
having possibly written a partial payload. -/
inductive InnerFillOutcome (σ : Type) where
  | returns (b : Bool) (newPayload : σ)
  | raises (newPayload : σ)
  deriving DecidableEq, Repr

/-- What `test_fill_form` does once the context lookup has happened: with no
context it either returns (retries > 2) or raises a retry `TaskError`; with a
context it sets `time_executed`, runs the inner helper, and in a `finally`
block sets `is_finished := true`, `in_progress := false` and commits, then
re-raises the inner exception if there was one.  The result is the committed
context document (if any) paired with the handler outcome as seen by the
scheduler. -/
def testFillForm {σ : Type} (context : Option (FormFillingTestDoc σ)) (retries : Nat)
    (now : Int) (inner : InnerFillOutcome σ) :
    Option (FormFillingTestDoc σ) × HandlerOutcome :=
  match context with
  | none =>
      if retries > 2 then (none, .success none)
      else (none, .taskError (some 5))
  | some ctx =>
      let ctx := { ctx with time_executed := some now }
      match inner with
      | .returns _ p =>
          (some { ctx with payload := p, is_finished := true, in_progress := false },
           .success none)
      | .raises p =>
          (some { ctx with payload := p, is_finished := true, in_progress := false },
           .otherException)

/-! ## Field-expression evaluator: `fieldexpr.py`

The language works over Python values: ints, bools (produced by the
comparison operators), strings, and `datetime.date`s.  Failures (TypeError,
ValueError, KeyError, IndexError, lark parse errors, ...) are modelled by
`PyErr`. -/

inductive PyErr where
  | typeError
  | valueError
  | keyError
  | indexError
  | attributeError
  | overflowError
  | zeroDivisionError
  | parseError
  | fuelExhausted
  deriving DecidableEq, Repr

inductive PyVal where
  | int (n : Int)
  | bool (b : Bool)
  | str (s : String)
  | date (y m d : Int)
  deriving DecidableEq, Repr

/-- Python truthiness (`bool(x)`): `0`, `False` and `""` are falsy; any
`datetime.date` is truthy. -/
def PyVal.truthy : PyVal → Bool
  | .int n => n ≠ 0
  | .bool b => b
  | .str s => s ≠ ""
  | .date _ _ _ => true

/-- Python `str(x)` for the values of the language.  `str` of a `datetime.date` is
its ISO form `YYYY-MM-DD` (zero-padded). -/
def pad2 (n : Int) : String :=
  if n < 10 then "0" ++ toString n else toString n

def pad4 (n : Int) : String :=
  if n < 10 then "000" ++ toString n
  else if n < 100 then "00" ++ toString n
  else if n < 1000 then "0" ++ toString n
  else toString n

def PyVal.pyStr : PyVal → String
  | .int n => toString n
  | .bool b => if b then "True" else "False"
  | .str s => s
  | .date y m d => pad4 y ++ "-" ++ pad2 m ++ "-" ++ pad2 d

/-- The numeric value of an int-like Python value (`bool` is a subtype of
`int` in Python). -/
def PyVal.asInt? : PyVal → Option Int
  | .int n => some n
  | .bool b => some (if b then 1 else 0)
  | _ => none

/-! ### `datetime.date` arithmetic

`daysFromCivil`/`civilFromDays` convert between a proleptic-Gregorian
calendar date and a day count, used to model `date + timedelta(days=n)`
(the `dadd` builtin).  `datetime.date` restricts years to 1..9999. -/

def isLeapYear (y : Int) : Bool :=
  y % 4 = 0 && (y % 100 ≠ 0 || y % 400 = 0)

def daysInMonth (y m : Int) : Int :=
  if m = 2 then (if isLeapYear y then 29 else 28)
  else if m = 4 ∨ m = 6 ∨ m = 9 ∨ m = 11 then 30
  else 31

def daysFromCivil (y m d : Int) : Int :=
  let y' := if m ≤ 2 then y - 1 else y
  let era := (if 0 ≤ y' then y' else y' - 399).fdiv 400
  let yoe := y' - era * 400
  let doy := (153 * (m + (if 2 < m then -3 else 9)) + 2).fdiv 5 + d - 1
  let doe := yoe * 365 + yoe.fdiv 4 - yoe.fdiv 100 + doy
  era * 146097 + doe - 719468

def civilFromDays (z : Int) : Int × Int × Int :=
  let z := z + 719468
  let era := (if 0 ≤ z then z else z - 146096).fdiv 146097
  let doe := z - era * 146097
  let yoe := (doe - doe.fdiv 1460 + doe.fdiv 36524 - doe.fdiv 146096).fdiv 365
  let y := yoe + era * 400
  let doy := doe - (365 * yoe + yoe.fdiv 4 - yoe.fdiv 100)
  let mp := (5 * doy + 2).fdiv 153
  let d := doy - (153 * mp + 2).fdiv 5 + 1
  let m := mp + (if mp < 10 then 3 else -9)
  (y + (if m ≤ 2 then 1 else 0), m, d)

/-- Python `datetime.date(y, m, d)`: validates the ranges (`ValueError` otherwise). -/
def mkDate (y m d : Int) : Except PyErr PyVal :=
  if 1 ≤ y ∧ y ≤ 9999 ∧ 1 ≤ m ∧ m ≤ 12 ∧ 1 ≤ d ∧ d ≤ daysInMonth y m then
    .ok (.date y m d)
  else .error .valueError

/-! ### Python `format(value, format_spec)`

`padl`/`padr` in `fieldexpr.py` are

    lambda s_in, s_pad, minlen: format(s_in, f"{{{s_pad}>{minlen}}}")
    lambda s_in, s_pad, minlen: format(s_in, f"{{{s_pad}<{minlen}}}")

Note the doubled braces: the f-string produces a *literal* brace around the
spec, e.g. `"{0>5}"` rather than `"0>5"`.  `pyFormatSpecParse` follows
CPython's `parse_internal_render_format_spec`: fill/align, sign, `#`, `0`,
width, thousands, precision, then at most one type character; anything left
over is `ValueError: Invalid format specifier`. -/

structure FormatSpec where
  fill : Char
  align : Option Char
  width : Nat
  precision : Option Nat
  typeChar : Option Char
  deriving DecidableEq, Repr

def isAlignChar (c : Char) : Bool := c = '<' || c = '>' || c = '=' || c = '^'

/-- Parse a run of decimal digits at the head of the list, returning the
value and the remainder. -/
def parseDigits (acc : Nat) : List Char → Nat × List Char
  | c :: cs => if c.isDigit then parseDigits (acc * 10 + (c.toNat - 48)) cs else (acc, c :: cs)
  | [] => (acc, [])

def pyFormatSpecParse (spec : String) : Except PyErr FormatSpec := do
  let cs := spec.toList
  -- fill / align
  let (fill, align, cs) :=
    match cs with
    | a :: b :: rest => if isAlignChar b then (a, some b, rest)
                        else if isAlignChar a then (' ', some a, b :: rest)
                        else (' ', none, a :: b :: rest)
    | [a] => if isAlignChar a then (' ', some a, ([] : List Char)) else (' ', none, [a])
    | [] => (' ', none, [])
  -- sign (only reachable for numeric rendering; recorded but unused for str)
  let cs := match cs with
            | c :: rest => if c = '+' ∨ c = '-' ∨ c = ' ' then rest else c :: rest
            | [] => []
  -- '#'
  let cs := match cs with
            | '#' :: rest => rest
            | other => other
  -- '0' shortcut for fill
  let (fill, align, cs) := match cs with
                           | '0' :: rest =>
                               (if align.isSome then fill else '0',
                                if align.isSome then align else some '=', rest)
                           | other => (fill, align, other)
  let (width, cs) := parseDigits 0 cs
  -- thousands separator
  let cs := match cs with
            | c :: rest => if c = ',' ∨ c = '_' then rest else c :: rest
            | [] => []
  -- precision
  let (precision, cs) ←
    match cs with
    | '.' :: rest =>
        match rest with
        | c :: _ => if c.isDigit then
                      let (p, rest') := parseDigits 0 rest
                      pure (some p, rest')
                    else throw PyErr.valueError
        | [] => throw PyErr.valueError
    | other => pure (none, other)
  -- at most one type character may remain
  match cs with
  | [] => pure { fill, align, width, precision, typeChar := none }
  | [c] => pure { fill, align, width, precision, typeChar := some c }
  | _ => throw PyErr.valueError

/-- Python `str.__format__`: only the empty/`s` type is allowed; `=` alignment and
signs are invalid for strings.  Renders precision-truncation then padding. -/
def pyFormatStr (s : String) (spec : String) : Except PyErr String := do
  let fs ← pyFormatSpecParse spec
  match fs.typeChar with
  | some c => if c = 's' then pure () else throw PyErr.valueError
  | none => pure ()
  if fs.align = some '=' then throw PyErr.valueError
  let s := match fs.precision with
           | some p => (s.toList.take p).asString
           | none => s
  let n := s.length
  if fs.width ≤ n then
    return s
  else
    let padLen := fs.width - n
    let padStr := (List.replicate padLen fs.fill).asString
    match fs.align.getD '<' with
    | '>' => return padStr ++ s
    | '^' =>
        let l := padLen / 2
        return (List.replicate l fs.fill).asString ++ s ++
               (List.replicate (padLen - l) fs.fill).asString
    | _ => return s ++ padStr

/-- Python `format(value, spec)` restricted to the value kinds of the language.
Every spec that `padl`/`padr` can construct begins with a literal `{`, so
the parse always fails; the str rendering is implemented anyway. -/
def pyFormat : PyVal → String → Except PyErr String
  | .str s, spec => pyFormatStr s spec
  | v, spec => do
      let _ ← pyFormatSpecParse spec
      -- numeric rendering is never reached by the claims; render default
      pure v.pyStr

/-! ### Lexing and parsing

The grammar (`_grammar` in fieldexpr.py):

    ?expr: comp
    ?comp: sum | comp (">"|">="|"<"|"<="|"=="|"!="|"||"|"&&") sum
    ?sum: product | sum ("+"|"-") product
    ?product: factor | product ("*"|"/"|"%") factor
    ?factor: "-" factor | molecule
    ?molecule: NAME "(" [expr ("," expr)*] ")" | atom
    ?atom: NUMBER | STRING | "$" NAME

with `NAME = CNAME`, `NUMBER = SIGNED_INT`, `STRING = "'" _STRING_ESC_INNER "'"`,
inline whitespace ignored.  (A leading sign on `NUMBER` and the `"-" factor`
rule produce syntactically different but semantically identical trees —
`int("-5")` versus `operator.neg(int("5"))` — so the lexer below reads
unsigned digits and leaves `-` to the `factor` rule.) -/

inductive Tok where
  | name (s : String)
  | num (n : Nat)
  | strLit (raw : String)  -- the text between the quotes, escapes kept
  | sym (s : String)
  deriving DecidableEq, Repr

def lexName (acc : List Char) : List Char → String × List Char
  | c :: cs =>
      if c.isAlpha || c.isDigit || c = '_' then lexName (acc ++ [c]) cs
      else (acc.asString, c :: cs)
  | [] => (acc.asString, [])

/-- Scan a single-quoted string body; a backslash escapes the next
character (lark's `_STRING_ESC_INNER`).  Returns the raw inner text. -/
def lexStrBody (acc : List Char) : List Char → Except PyErr (String × List Char)
  | '\\' :: c :: cs => lexStrBody (acc ++ ['\\', c]) cs
  | '\'' :: cs => .ok (acc.asString, cs)
  | c :: cs => lexStrBody (acc ++ [c]) cs
  | [] => .error .parseError

/-- Tokenizer.  Lark's lexer scans left to right; `fuel` (always instantiated
to more than the input length) only serves Lean's termination checker and
keeps the definition structurally recursive so it evaluates in the kernel. -/
def lexFE : Nat → List Char → Except PyErr (List Tok)
  | 0, _ => .error .fuelExhausted
  | _, [] => .ok []
  | fuel + 1, c :: cs =>
    if c = ' ' ∨ c = '\t' then lexFE fuel cs
    else if c.isDigit then
      let (n, rest) := parseDigits 0 (c :: cs)
      (lexFE fuel rest).map (Tok.num n :: ·)
    else if c.isAlpha ∨ c = '_' then
      let (s, rest) := lexName [] (c :: cs)
      (lexFE fuel rest).map (Tok.name s :: ·)
    else if c = '\'' then do
      let (s, rest) ← lexStrBody [] cs
      (lexFE fuel rest).map (Tok.strLit s :: ·)
    else
      match c, cs with
      | '>', '=' :: rest => (lexFE fuel rest).map (Tok.sym ">=" :: ·)
      | '<', '=' :: rest => (lexFE fuel rest).map (Tok.sym "<=" :: ·)
      | '=', '=' :: rest => (lexFE fuel rest).map (Tok.sym "==" :: ·)
      | '!', '=' :: rest => (lexFE fuel rest).map (Tok.sym "!=" :: ·)
      | '|', '|' :: rest => (lexFE fuel rest).map (Tok.sym "||" :: ·)
      | '&', '&' :: rest => (lexFE fuel rest).map (Tok.sym "&&" :: ·)
      | _, _ =>
        if c = '>' ∨ c = '<' ∨ c = '+' ∨ c = '-' ∨ c = '*' ∨ c = '/' ∨ c = '%'
           ∨ c = '(' ∨ c = ')' ∨ c = ',' ∨ c = '$' then
          (lexFE fuel cs).map (Tok.sym c.toString :: ·)
        else .error .parseError

inductive BinOp where
  | gt | ge | lt | le | eq | ne | orOp | andOp | add | sub | mul | div | mod
  deriving DecidableEq, Repr

inductive FExpr where
  | num (n : Nat)
  | strLit (raw : String)
  | var (name : String)
  | neg (e : FExpr)
  | bin (op : BinOp) (a b : FExpr)
  | call (fname : String) (args : List FExpr)
  deriving Repr

mutual

/-- Rule `?comp`: a `sum` followed by a left-associated chain of comparison /
boolean operators. -/
def parseComp : Nat → List Tok → Except PyErr (FExpr × List Tok)
  | 0, _ => .error .fuelExhausted
  | fuel + 1, ts => do
      let (e, ts) ← parseSum fuel ts
      parseCompRest fuel e ts

def parseCompRest : Nat → FExpr → List Tok → Except PyErr (FExpr × List Tok)
  | 0, _, _ => .error .fuelExhausted
  | fuel + 1, e, ts =>
      match ts with
      | .sym ">" :: ts => do let (r, ts) ← parseSum fuel ts; parseCompRest fuel (.bin .gt e r) ts
      | .sym ">=" :: ts => do let (r, ts) ← parseSum fuel ts; parseCompRest fuel (.bin .ge e r) ts
      | .sym "<" :: ts => do let (r, ts) ← parseSum fuel ts; parseCompRest fuel (.bin .lt e r) ts
      | .sym "<=" :: ts => do let (r, ts) ← parseSum fuel ts; parseCompRest fuel (.bin .le e r) ts
      | .sym "==" :: ts => do let (r, ts) ← parseSum fuel ts; parseCompRest fuel (.bin .eq e r) ts
      | .sym "!=" :: ts => do let (r, ts) ← parseSum fuel ts; parseCompRest fuel (.bin .ne e r) ts
      | .sym "||" :: ts => do let (r, ts) ← parseSum fuel ts; parseCompRest fuel (.bin .orOp e r) ts
      | .sym "&&" :: ts => do let (r, ts) ← parseSum fuel ts; parseCompRest fuel (.bin .andOp e r) ts
      | _ => .ok (e, ts)

def parseSum : Nat → List Tok → Except PyErr (FExpr × List Tok)
  | 0, _ => .error .fuelExhausted
  | fuel + 1, ts => do
      let (e, ts) ← parseProduct fuel ts
      parseSumRest fuel e ts

def parseSumRest : Nat → FExpr → List Tok → Except PyErr (FExpr × List Tok)
  | 0, _, _ => .error .fuelExhausted
  | fuel + 1, e, ts =>
      match ts with
      | .sym "+" :: ts => do let (r, ts) ← parseProduct fuel ts; parseSumRest fuel (.bin .add e r) ts
      | .sym "-" :: ts => do let (r, ts) ← parseProduct fuel ts; parseSumRest fuel (.bin .sub e r) ts
      | _ => .ok (e, ts)

def parseProduct : Nat → List Tok → Except PyErr (FExpr × List Tok)
  | 0, _ => .error .fuelExhausted
  | fuel + 1, ts => do
      let (e, ts) ← parseFactor fuel ts
      parseProductRest fuel e ts

def parseProductRest : Nat → FExpr → List Tok → Except PyErr (FExpr × List Tok)
  | 0, _, _ => .error .fuelExhausted
  | fuel + 1, e, ts =>
      match ts with
      | .sym "*" :: ts => do let (r, ts) ← parseFactor fuel ts; parseProductRest fuel (.bin .mul e r) ts
      | .sym "/" :: ts => do let (r, ts) ← parseFactor fuel ts; parseProductRest fuel (.bin .div e r) ts
      | .sym "%" :: ts => do let (r, ts) ← parseFactor fuel ts; parseProductRest fuel (.bin .mod e r) ts
      | _ => .ok (e, ts)

def parseFactor : Nat → List Tok → Except PyErr (FExpr × List Tok)
  | 0, _ => .error .fuelExhausted
  | fuel + 1, ts =>
      match ts with
      | .sym "-" :: ts => do
          let (e, ts) ← parseFactor fuel ts
          .ok (.neg e, ts)
      | _ => parseMolecule fuel ts

def parseMolecule : Nat → List Tok → Except PyErr (FExpr × List Tok)
  | 0, _ => .error .fuelExhausted
  | fuel + 1, ts =>
      match ts with
      | .name f :: .sym "(" :: ts =>
          (match ts with
           | .sym ")" :: ts => .ok (.call f [], ts)
           | _ => do
              let (a, ts) ← parseComp fuel ts
              parseArgsRest fuel f [a] ts)
      | _ => parseAtom fuel ts

def parseArgsRest : Nat → String → List FExpr → List Tok → Except PyErr (FExpr × List Tok)
  | 0, _, _, _ => .error .fuelExhausted
  | fuel + 1, f, args, ts =>
      match ts with
      | .sym "," :: ts => do
          let (a, ts) ← parseComp fuel ts
          parseArgsRest fuel f (args ++ [a]) ts
      | .sym ")" :: ts => .ok (.call f args, ts)
      | _ => .error .parseError

def parseAtom : Nat → List Tok → Except PyErr (FExpr × List Tok)
  | 0, _ => .error .fuelExhausted
  | _ + 1, ts =>
      match ts with
      | .num n :: ts => .ok (.num n, ts)
      | .strLit s :: ts => .ok (.strLit s, ts)
      | .sym "$" :: .name v :: ts => .ok (.var v, ts)
      | _ => .error .parseError

end

/-- Model of `_parser.parse(text)`: lex, parse a full `expr`, and require all input
to be consumed. -/
def parseFE (text : String) : Except PyErr FExpr := do
  let toks ← lexFE (text.length + 1) text.toList
  let (e, rest) ← parseComp (text.length + 2) toks
  if rest.isEmpty then .ok e else .error .parseError

/-! ### The transformer (`FETransformer`) -/

/-- Replace every (leftmost, non-overlapping) occurrence of the two-character
sequence `\'` by `'`, as `.replace("\\'", "'")` does. -/
def unescapeChars : List Char → List Char
  | '\\' :: '\'' :: cs => '\'' :: unescapeChars cs
  | c :: cs => c :: unescapeChars cs
  | [] => []

/-- The `string` callback: token text between the quotes with `\'` unescaped
(`s[1:-1].replace("\\'", "'")`). -/
def unescapeFE (raw : String) : String := (unescapeChars raw.toList).asString

/-- Python `operator.neg`. -/
def pyNeg : PyVal → Except PyErr PyVal
  | v => match v.asInt? with
         | some n => .ok (.int (-n))
         | none => .error .typeError

/-- Three-way comparison used by `operator.gt/ge/lt/le` and by `min`/`max`:
defined for number/number (Python `bool` is an `int`), str/str and date/date;
any other pairing raises `TypeError`. -/
def pyCompare : PyVal → PyVal → Except PyErr Ordering
  | .str a, .str b => .ok (compare a b)
  | .date y m d, .date y' m' d' =>
      .ok ((compare y y').then ((compare m m').then (compare d d')))
  | a, b =>
      match a.asInt?, b.asInt? with
      | some x, some y => .ok (compare x y)
      | _, _ => .error .typeError

/-- Python `operator.eq`: equality never raises; values of unrelated kinds are
simply unequal (numbers still compare with bools by value). -/
def pyEq : PyVal → PyVal → Bool
  | .str a, .str b => a = b
  | .date y m d, .date y' m' d' => y = y' ∧ m = m' ∧ d = d'
  | a, b =>
      match a.asInt?, b.asInt? with
      | some x, some y => x = y
      | _, _ => false

/-- Binary operators of the grammar.  `+` is `operator.add` (ints and string
concatenation), `/` is `operator.floordiv`, `%` is `operator.mod` (modelled
for ints; Python's printf-style `str % x` is unreachable from the grammar's
use sites and unmodelled).  `||`/`&&` map to the class-body lambdas
`or_`/`and_`; under `@lark.v_args(inline=True)` those lambdas are bound
methods, so they receive `self` plus the two children — three arguments for a
two-parameter lambda — and raise `TypeError` whenever such a node is
transformed. -/
def evalBin : BinOp → PyVal → PyVal → Except PyErr PyVal
  | .add, .str a, .str b => .ok (.str (a ++ b))
  | .add, a, b =>
      (match a.asInt?, b.asInt? with
       | some x, some y => .ok (.int (x + y))
       | _, _ => .error .typeError)
  | .sub, a, b =>
      (match a.asInt?, b.asInt? with
       | some x, some y => .ok (.int (x - y))
       | _, _ => .error .typeError)
  | .mul, .str s, b =>
      (match b.asInt? with
       | some k => .ok (.str (String.join (List.replicate k.toNat s)))
       | none => .error .typeError)
  | .mul, a, .str s =>
      (match a.asInt? with
       | some k => .ok (.str (String.join (List.replicate k.toNat s)))
       | none => .error .typeError)
  | .mul, a, b =>
      (match a.asInt?, b.asInt? with
       | some x, some y => .ok (.int (x * y))
       | _, _ => .error .typeError)
  | .div, a, b =>
      (match a.asInt?, b.asInt? with
       | some x, some y => if y = 0 then .error .zeroDivisionError else .ok (.int (x.fdiv y))
       | _, _ => .error .typeError)
  | .mod, a, b =>
      (match a.asInt?, b.asInt? with
       | some x, some y => if y = 0 then .error .zeroDivisionError else .ok (.int (x.fmod y))
       | _, _ => .error .typeError)
  | .gt, a, b => (pyCompare a b).map (fun o => .bool (o = .gt))
  | .ge, a, b => (pyCompare a b).map (fun o => .bool (o ≠ .lt))
  | .lt, a, b => (pyCompare a b).map (fun o => .bool (o = .lt))
  | .le, a, b => (pyCompare a b).map (fun o => .bool (o ≠ .gt))
  | .eq, a, b => .ok (.bool (pyEq a b))
  | .ne, a, b => .ok (.bool (!pyEq a b))
  | .orOp, _, _ => .error .typeError
  | .andOp, _, _ => .error .typeError

/-- Python slicing `s[start:end]` for strings: negative indices count from
the end, out-of-range indices clamp. -/
def pySlice (s : String) (start : Int) (stop : Option Int) : String :=
  let n : Int := s.length
  let norm : Int → Nat := fun i =>
    (if i < 0 then max (n + i) 0 else min i n).toNat
  let i := norm start
  let j := match stop with
           | some e => norm e
           | none => s.length
  ((s.toList.take j).drop i).asString

/-- Python `int(s)` for a string: optional surrounding whitespace, optional
sign, at least one digit. -/
def pyIntOfStr (s : String) : Except PyErr Int :=
  let cs := s.toList.dropWhile (fun c => c = ' ' ∨ c = '\t' ∨ c = '\n')
  let cs := (cs.reverse.dropWhile (fun c => c = ' ' ∨ c = '\t' ∨ c = '\n')).reverse
  let (sign, digits) : Int × List Char :=
    match cs with
    | '-' :: rest => (-1, rest)
    | '+' :: rest => (1, rest)
    | rest => (1, rest)
  if digits.isEmpty ∨ ¬ digits.all Char.isDigit then .error .valueError
  else .ok (sign * (parseDigits 0 digits).1)

/-- Python `s.capitalize()`: first character uppercased, the rest lowercased. -/
def pyCapitalize (s : String) : String :=
  match s.toList with
  | [] => ""
  | c :: cs => (c.toUpper :: cs.map Char.toLower).asString

/-- Python `s.split(sep)` for a non-empty separator: split at every
leftmost occurrence, keeping empty parts. -/
def pySplitAux (sep : List Char) : Nat → List Char → List Char → List String
  | _, cur, [] => [cur.asString]
  | 0, cur, rest => [(cur ++ rest).asString]
  | fuel + 1, cur, c :: cs =>
      if sep.isPrefixOf (c :: cs) then
        cur.asString :: pySplitAux sep fuel [] ((c :: cs).drop sep.length)
      else pySplitAux sep fuel (cur ++ [c]) cs

def pySplit (s sep : String) : List String :=
  pySplitAux sep.toList (s.length + 1) [] s.toList

/-- Python list indexing with negative indices (`xs[i]`); `IndexError` when
out of range. -/
def pyIndex {α : Type} (xs : List α) (i : Int) : Except PyErr α :=
  let j := if i < 0 then i + xs.length else i
  if h : 0 ≤ j ∧ j.toNat < xs.length then .ok (xs.get ⟨j.toNat, h.2⟩)
  else .error .indexError

/-- Builtins `min`/`max` over the argument list (Python's n-ary `min`/`max`; with a
single argument Python iterates it, which for a string yields its smallest /
largest one-character substring and for anything else in this value space
raises `TypeError`). -/
def pyMinMax (isMin : Bool) : List PyVal → Except PyErr PyVal
  | [] => .error .typeError
  | [.str s] =>
      (match s.toList with
       | [] => .error .valueError
       | c :: cs => .ok (.str (String.mk [cs.foldl (fun a b =>
           if isMin then (if b < a then b else a) else (if a < b then b else a)) c])))
  | [_] => .error .typeError
  | v :: vs => vs.foldlM (fun acc w => do
      let o ← pyCompare w acc
      if isMin then (if o = .lt then pure w else pure acc)
      else (if o = .gt then pure w else pure acc)) v

/-- The `_fe_funcs` table: application of a built-in to already-evaluated
arguments.  An unknown name is a `KeyError`
(`FETransformer._fe_funcs[name]`); a wrong argument count is a `TypeError`.
`rnd` is an oracle standing for `random.randint` (inclusive bounds). -/
def applyFunc (rnd : Int → Int → Int) (fname : String) (args : List PyVal) :
    Except PyErr PyVal :=
  match fname, args with
  | "substr", [.str s, st] =>
      (match st.asInt? with
       | some i => .ok (.str (pySlice s i none))
       | none => .error .typeError)
  | "substr", [.str s, st, en] =>
      (match st.asInt?, en.asInt? with
       | some i, some j => .ok (.str (pySlice s i (some j)))
       | _, _ => .error .typeError)
  | "substr", [_, _] => .error .typeError
  | "substr", [_, _, _] => .error .typeError
  | "len", [.str s] => .ok (.int s.length)
  | "len", [_] => .error .typeError
  | "tok", [.str s, .str sep, idx] =>
      (match idx.asInt? with
       | some i =>
          if sep = "" then .error .valueError
          else (pyIndex (pySplit s sep) i).map .str
       | none => .error .typeError)
  | "tok", [_, _, _] => .error .typeError
  | "cap", [.str s] => .ok (.str (pyCapitalize s))
  | "cap", [_] => .error .attributeError
  | "upper", [.str s] => .ok (.str (s.toList.map Char.toUpper).asString)
  | "upper", [_] => .error .attributeError
  | "lower", [.str s] => .ok (.str (s.toList.map Char.toLower).asString)
  | "lower", [_] => .error .attributeError
  | "padl", [s, pad, minlen] =>
      (pyFormat s ("\x7b" ++ pad.pyStr ++ ">" ++ minlen.pyStr ++ "\x7d")).map .str
  | "padr", [s, pad, minlen] =>
      (pyFormat s ("\x7b" ++ pad.pyStr ++ "<" ++ minlen.pyStr ++ "\x7d")).map .str
  | "if", [c, t, f] => .ok (if c.truthy then t else f)
  | "str", [v] => .ok (.str v.pyStr)
  | "int", [.str s] => (pyIntOfStr s).map .int
  | "int", [v] =>
      (match v.asInt? with
       | some n => .ok (.int n)
       | none => .error .typeError)
  | "date", [y, m, d] =>
      (match y.asInt?, m.asInt?, d.asInt? with
       | some y, some m, some d => mkDate y m d
       | _, _, _ => .error .typeError)
  | "dyear", [.date y _ _] => .ok (.int y)
  | "dyear", [_] => .error .attributeError
  | "dmon", [.date _ m _] => .ok (.int m)
  | "dmon", [_] => .error .attributeError
  | "dday", [.date _ _ d] => .ok (.int d)
  | "dday", [_] => .error .attributeError
  | "dadd", [.date y m d, days] =>
      (match days.asInt? with
       | some k =>
          let (y', m', d') := civilFromDays (daysFromCivil y m d + k)
          if 1 ≤ y' ∧ y' ≤ 9999 then .ok (.date y' m' d') else .error .overflowError
       | none => .error .typeError)
  | "dadd", [_, _] => .error .typeError
  | "min", vs => pyMinMax true vs
  | "max", vs => pyMinMax false vs
  | "unmax", vs => pyMinMax true vs
  | "random", [lo, hi] =>
      (match lo.asInt?, hi.asInt? with
       | some a, some b => if b < a then .error .valueError else .ok (.int (rnd a b))
       | _, _ => .error .typeError)
  | "random", _ => .error .typeError
  | "substr", _ | "len", _ | "tok", _ | "cap", _ | "upper", _ | "lower", _
  | "padl", _ | "padr", _ | "if", _ | "str", _ | "int", _ | "date", _
  | "dyear", _ | "dmon", _ | "dday", _ | "dadd", _ => .error .typeError
  | _, _ => .error .keyError

mutual

/-- Bottom-up evaluation of a parse tree, as `lark.Transformer.transform`
performs it (children before parents, left to right; every child is
evaluated — no short-circuiting).  `ctx` is the name→value context;
`self.context[name]` raises `KeyError` for an unbound variable. -/
def evalFE (rnd : Int → Int → Int) : Nat → FExpr → List (String × PyVal) →
    Except PyErr PyVal
  | 0, _, _ => .error .fuelExhausted
  | fuel + 1, e, ctx =>
      match e with
      | .num n => .ok (.int n)
      | .strLit raw => .ok (.str (unescapeFE raw))
      | .var v =>
          (match (ctx.find? (fun p => p.1 = v)) with
           | some p => .ok p.2
           | none => .error .keyError)
      | .neg e => do pyNeg (← evalFE rnd fuel e ctx)
      | .bin op a b => do
          let va ← evalFE rnd fuel a ctx
          let vb ← evalFE rnd fuel b ctx
          evalBin op va vb
      | .call f args => do applyFunc rnd f (← evalArgsFE rnd fuel args ctx)

def evalArgsFE (rnd : Int → Int → Int) : Nat → List FExpr → List (String × PyVal) →
    Except PyErr (List PyVal)
  | 0, _, _ => .error .fuelExhausted
  | _ + 1, [], _ => .ok []
  | fuel + 1, a :: rest, ctx => do
      let v ← evalFE rnd fuel a ctx
      let vs ← evalArgsFE rnd fuel rest ctx
      .ok (v :: vs)

end

/-- Model of `fieldexpr.interpret(text, context)`: parse, then transform. -/
def interpret (rnd : Int → Int → Int) (text : String) (ctx : List (String × PyVal)) :
    Except PyErr PyVal := do
  evalFE rnd (text.length + 2) (← parseFE text) ctx

/-! ## `fill_form` (tasks.py lines 156–468) and `ghoster.fill_form`
(ghoster.py lines 238–328)

The claim-relevant tail of the handler starts once `db_course` and the
field-expression context are established (tasks.py line 385): format the
fields, call `ghoster.fill_form` in the executor, and persist the result.

`tasks.py` builds each component as the **4-tuple**
`(field.index_on_page, title, kind, value)` (line 415), while
`ghoster.fill_form` iterates `for (index, expected_title, kind, value,
critical) in components` (line 280) — a **5-tuple** — and returns the
**3-tuple** `(shot_pre, shot_post, warnings)` which the handler unpacks as
`fss, css = result` (line 447).  Python tuples are modelled as heterogeneous
lists (`List TupElem` for components, `List Nat` for the returned
screenshots) so these arity mismatches surface as the `ValueError`s they
raise at run time. -/

/-- Enum `FormFieldType` (documents.py lines 139–151). -/
inductive FormFieldType where
  | TEXT
  | LONG_TEXT
  | DATE
  | MULTIPLE_CHOICE
  | CHECKBOX
  | DROPDOWN
  deriving DecidableEq, Repr

/-- A `FormField` embedded document (documents.py lines 154–173). -/
structure FormFieldDoc where
  expected_label_segment : Option String
  index_on_page : Nat
  target_value : String
  kind : FormFieldType
  deriving Repr

/-- Enum `FillFormResultType` (documents.py lines 62–70). -/
inductive FillFormResultType where
  | SUCCESS
  | FAILURE
  | POSSIBLE_FAILURE
  | SUBMIT_DISABLED
  deriving DecidableEq, Repr

/-- The claim-relevant part of a `FillFormResult` embedded document
(documents.py lines 73–82); screenshot blob ids are opaque `Nat`s. -/
structure FillFormResultDoc where
  result : FillFormResultType
  course : Option Nat
  form_screenshot_id : Option Nat
  confirmation_screenshot_id : Option Nat
  deriving DecidableEq, Repr

/-- One element of a dynamically-typed Python tuple used between `tasks.py`
and `ghoster.py`. -/
inductive TupElem where
  | nat (n : Nat)
  | str (s : String)
  | kind (k : FormFieldType)
  | val (v : PyVal)
  deriving DecidableEq, Repr

/-- The field-formatting loop (tasks.py lines 397–415): evaluate each
field's `target_value` with `fieldexpr.interpret`; any exception takes the
handler's internal-error branch.  Each formatted component is the 4-tuple
`(field.index_on_page, title, kind, value)` with
`title = field.expected_label_segment or ""`. -/
def buildFields (rnd : Int → Int → Int) (ctx : List (String × PyVal))
    (subFields : List FormFieldDoc) : Except PyErr (List (List TupElem)) :=
  subFields.mapM fun field => do
    let value ← interpret rnd field.target_value ctx
    pure [.nat field.index_on_page, .str (field.expected_label_segment.getD ""),
          .kind field.kind, .val value]

/-- Result of `ghoster.fill_form` as observed by the handler. -/
inductive GhosterResult where
  | ret (tup : List Nat)        -- the returned tuple, as a dynamic list
  | possibleFail (screenshot : Nat)
  | ghosterErr                  -- GhosterAuthFailed / GhosterInvalidForm / other GhosterError
  | pyExc (e : PyErr)           -- any non-Ghoster exception
  deriving DecidableEq, Repr

/-- Model of `ghoster.fill_form` under the scenario's assumptions (page loads, the
submit button appears, filling succeeds, the response page appears): the
component loop unpacks each component into the five names `(index,
expected_title, kind, value, critical)` — raising `ValueError` on any
component of a different arity — then takes `shot_pre`, on a dry run
returns `(shot_pre, shot_pre, warnings)`, otherwise clicks submit and
returns `(shot_pre, shot_post, warnings)`.  The `warnings` list is modelled
by the opaque marker `wmark`. -/
def ghosterFillForm (components : List (List TupElem)) (dryRun : Bool)
    (shotPre shotPost wmark : Nat) : GhosterResult :=
  if components.all (fun comp => comp.length = 5) then
    if dryRun then .ret [shotPre, shotPre, wmark]
    else .ret [shotPre, shotPost, wmark]
  else .pyExc .valueError

/-- The tail of the `fill_form` handler (tasks.py lines 396–468), from the
field-formatting loop on.  Parameters: `retries` is the task's retry count,
`submitEnabled` is `FILL_FORM_SUBMIT_ENABLED`, `courseId` is `db_course.pk`,
`nextRunAt` stands for `next_run_time(FILL_FORM_RUN_TIME)` (a random instant
in tomorrow's window), `fid`/`cid` are the blob ids GridFS would assign to
the uploaded screenshots.  Returns the user's committed
`last_fill_form_result` and the handler outcome seen by the scheduler.
(`FILL_FORM_RETRY_LIMIT = 3` and `FILL_FORM_RETRY_IN = 1800` are the
defaults from tasks.py lines 34–35.) -/
def fillFormTail (rnd : Int → Int → Int) (retries : Nat) (submitEnabled : Bool)
    (courseId : Nat) (ctx : List (String × PyVal)) (subFields : List FormFieldDoc)
    (shotPre shotPost wmark fid cid : Nat) (nextRunAt : Int) :
    Option FillFormResultDoc × HandlerOutcome :=
  -- the retry-or-reschedule pattern shared by the error branches
  let failRetry : Option FillFormResultDoc × HandlerOutcome :=
    (some ⟨.FAILURE, some courseId, none, none⟩,
     if retries < 3 then .taskError (some 1800) else .success (some nextRunAt))
  match buildFields rnd ctx subFields with
  | .error _ => failRetry  -- tasks.py lines 403–412
  | .ok fields =>
    match ghosterFillForm fields (!submitEnabled) shotPre shotPost wmark with
    | .possibleFail s =>
        -- tasks.py lines 420–429: record possible-failure, never retry
        (some ⟨.POSSIBLE_FAILURE, some courseId, none, some s⟩, .success (some nextRunAt))
    | .ghosterErr => failRetry  -- tasks.py lines 430–444
    | .pyExc _ => failRetry     -- outer catch-all, tasks.py lines 459–468
    | .ret tup =>
        -- tasks.py line 447: `fss, css = result`
        match tup with
        | [fss, css] =>
            let _ := (fss, css)
            (some ⟨if submitEnabled then .SUCCESS else .SUBMIT_DISABLED,
                   some courseId, some fid, some cid⟩,
             .success (some nextRunAt))
        | _ => failRetry  -- unpacking a non-pair raises ValueError → catch-all

/-! ## `LockboxDB.populate_user_courses` (db.py lines 155–185)

The shared `Course` collection is a list of course documents; `course_code`
carries a unique index and is the lookup key, so a document's primary key is
identified with its `course_code` here.  The state is the pair
(course collection, `user.courses`). -/

/-- The fields of a `tdsbconnects.TimetableItem` the function reads. -/
structure TTItem where
  course_code : String
  course_teacher_name : String
  course_cycle_day : Nat
  course_period : String
  deriving DecidableEq, Repr

/-- The fields of a `Course` document the function touches
(documents.py lines 195–225). -/
structure CourseDoc where
  course_code : String
  teacher_name : String
  known_slots : List String
  deriving DecidableEq, Repr

/-- The slot string `f"{course.course_cycle_day}-{course.course_period}"`. -/
def slotStr (it : TTItem) : String :=
  toString it.course_cycle_day ++ "-" ++ it.course_period

/-- Commit of a fetched, modified course document: replace the (first)
document with its `course_code` in the collection. -/
def replaceFirstByCode : List CourseDoc → String → CourseDoc → List CourseDoc
  | [], _, _ => []
  | c' :: rest, code, c =>
      if c'.course_code = code then c :: rest else c' :: replaceFirstByCode rest code c

/-- Step `if not db_course.teacher_name: db_course.teacher_name =
course.course_teacher_name` — set the teacher name when falsy (empty). -/
def teacherFix (c : CourseDoc) (it : TTItem) : CourseDoc :=
  if c.teacher_name = "" then { c with teacher_name := it.course_teacher_name } else c

/-- Step `if slot_str not in db_course.known_slots:
db_course.known_slots.append(slot_str)`. -/
def slotFix (c : CourseDoc) (it : TTItem) : CourseDoc :=
  if slotStr it ∈ c.known_slots then c
  else { c with known_slots := c.known_slots ++ [slotStr it] }

/-- Step `if db_course.pk not in user.courses: user.courses.append(db_course.pk)`
(primary keys identified with course codes). -/
def ucStep (uc : List String) (it : TTItem) : List String :=
  if it.course_code ∈ uc then uc else uc ++ [it.course_code]

/-- One iteration of the `for course in courses` loop of
`populate_user_courses`: look the `Course` up by `course_code`; when absent,
create it with the item's teacher name and a fresh `known_slots` list; when
present, set `teacher_name` if falsy; append the slot string if absent;
commit (insert or replace); append the course's id to `user.courses` if
absent. -/
def popStep (st : List CourseDoc × List String) (it : TTItem) :
    List CourseDoc × List String :=
  let db := st.1
  let uc := st.2
  match db.find? (fun c => c.course_code = it.course_code) with
  | none =>
      let db_course := slotFix ⟨it.course_code, it.course_teacher_name, []⟩ it
      (db ++ [db_course], ucStep uc it)
  | some c =>
      let db_course := slotFix (teacherFix c it) it
      (replaceFirstByCode db it.course_code db_course, ucStep uc it)

/-- Model of `populate_user_courses(user, courses, clear_previous)`: reset
`user.courses` (to `[]` when clearing, else `user.courses or []`), then run
the upsert loop over the timetable items. -/
def populate_user_courses (items : List TTItem) (clearPrevious : Bool)
    (s : List CourseDoc × List String) : List CourseDoc × List String :=
  items.foldl popStep (s.1, if clearPrevious then [] else s.2)

/-- The course-collection component of `popStep` (the upsert reads and
writes only the collection, never `user.courses`). -/
def dbStep (db : List CourseDoc) (it : TTItem) : List CourseDoc :=
  (popStep (db, []) it).1

/-- A timetable item is *absorbed* by the collection when the loop's lookup
finds a course that already carries the item's slot string and has a
non-empty teacher name whenever the item brings one — precisely the state
in which `popStep` no longer changes the collection. -/
def Absorbed (it : TTItem) (db : List CourseDoc) : Prop :=
  ∃ c, db.find? (fun c => c.course_code = it.course_code) = some c
    ∧ slotStr it ∈ c.known_slots
    ∧ (it.course_teacher_name ≠ "" → c.teacher_name ≠ "")

/-! ## `LockboxDB.get_form_geometry` (db.py lines 388–438), fresh-URL path -/

/-- The declared fields of `CachedFormGeometry`
(documents.py lines 238–252). -/
def cachedFormGeometryFields : List String :=
  ["url", "requested_by", "geometry", "auth_required", "screenshot_file_id",
   "response_status", "error"]

/-- Outcome of `POST /form_geometry` for a URL with no cached geometry. -/
inductive GeomOutcome where
  | pendingResponse (tasksCreated : List TaskType)  -- {"geometry": None, ...} after enqueuing
  | invalidFieldError                               -- ValidationError → LockboxDBError (400)
  | pythonError (e : PyErr)                         -- uncaught exception (500)
  deriving DecidableEq, Repr

/-- The `geom is None` branch of `get_form_geometry` (db.py lines 411–425),
after the token and credential checks have passed: construct
`CachedFormGeometryImpl(url=…, requested_by=…, geometry=None,
grab_screenshot=…)` — whose keyword arguments must all be declared fields,
else umongo raises a `ValidationError` caught into `LockboxDBError`
(invalid field) — then create a `TaskType.GET_FORM_GEOMETRY` task and a
`TaskType.REMOVE_OLD_FORM_GEOMETRY` task 15 minutes later (attribute
lookups on the enum) and return the pending response. -/
def getFormGeometryFreshUrl : GeomOutcome :=
  if ["url", "requested_by", "geometry", "grab_screenshot"].all
       (fun k => k ∈ cachedFormGeometryFields) then
    match TaskType.fromName "GET_FORM_GEOMETRY", TaskType.fromName "REMOVE_OLD_FORM_GEOMETRY" with
    | some k1, some k2 => .pendingResponse [k1, k2]
    | _, _ => .pythonError .attributeError
  else .invalidFieldError

/-- The seven task kinds named by the specification. -/
def claimedTaskKinds : List String :=
  ["check-day", "fill-form", "populate-courses", "get-form-geometry",
   "test-fill-form", "remove-old-form-geometry", "remove-old-test-results"]

/-! ## Signup codes: `fenetre/auth.py`

`generate_signup_code(hmac_secret, unix_time)` derives a 6-hex-digit token
from HMAC-SHA256 of the 8-byte big-endian minute counter, RFC-4226
truncation, `% 2**31`, `% 16**6`.  `verify_signup_code` compares the token
against the codes of minutes `current_time//60 + offset` for
`offset in range(-2, 7)`.

Bytes are `Nat`s below 256 in `List Nat`; 32-bit words are `Nat`s reduced
with `% 2^32`. -/

def u32 (n : Nat) : Nat := n % 4294967296

def rotr32 (k x : Nat) : Nat := u32 ((x >>> k) ||| (x <<< (32 - k)))

def shr32 (k x : Nat) : Nat := x >>> k

/-- SHA-256 round constants (decimal). -/
def sha256K : List Nat :=
  [1116352408, 1899447441, 3049323471, 3921009573, 961987163,
   1508970993, 2453635748, 2870763221, 3624381080, 310598401,
   607225278, 1426881987, 1925078388, 2162078206, 2614888103,
   3248222580, 3835390401, 4022224774, 264347078, 604807628,
   770255983, 1249150122, 1555081692, 1996064986, 2554220882,
   2821834349, 2952996808, 3210313671, 3336571891, 3584528711,
   113926993, 338241895, 666307205, 773529912, 1294757372,
   1396182291, 1695183700, 1986661051, 2177026350, 2456956037,
   2730485921, 2820302411, 3259730800, 3345764771, 3516065817,
   3600352804, 4094571909, 275423344, 430227734, 506948616,
   659060556, 883997877, 958139571, 1322822218, 1537002063,
   1747873779, 1955562222, 2024104815, 2227730452, 2361852424,
   2428436474, 2756734187, 3204031479, 3329325298]

/-- SHA-256 initial hash value (decimal). -/
def sha256H0 : List Nat :=
  [1779033703, 3144134277, 1013904242, 2773480762, 1359893119,
   2600822924, 528734635, 1541459225]

/-- Big-endian byte decomposition (`int.to_bytes(len, 'big')`). -/
def toBytesBE (len n : Nat) : List Nat :=
  (List.range len).map (fun i => (n >>> (8 * (len - 1 - i))) % 256)

/-- Big-endian byte recomposition (`int.from_bytes(_, 'big')`). -/
def fromBytesBE (bs : List Nat) : Nat :=
  bs.foldl (fun acc b => acc * 256 + b) 0

/-- Group a byte list into 32-bit big-endian words. -/
def bytesToWords : List Nat → List Nat
  | a :: b :: c :: d :: rest => (((a * 256 + b) * 256 + c) * 256 + d) :: bytesToWords rest
  | _ => []

/-- Message-schedule extension: 48 rounds appending
`σ1(w[n-2]) + w[n-7] + σ0(w[n-15]) + w[n-16]`. -/
def schedStep (w : List Nat) (_i : Nat) : List Nat :=
  let n := w.length
  let w2 := w.getD (n - 2) 0
  let w7 := w.getD (n - 7) 0
  let w15 := w.getD (n - 15) 0
  let w16 := w.getD (n - 16) 0
  let s0 := (rotr32 7 w15) ^^^ (rotr32 18 w15) ^^^ (shr32 3 w15)
  let s1 := (rotr32 17 w2) ^^^ (rotr32 19 w2) ^^^ (shr32 10 w2)
  w ++ [u32 (s1 + w7 + s0 + w16)]

structure Sha256State where
  a : Nat
  b : Nat
  c : Nat
  d : Nat
  e : Nat
  f : Nat
  g : Nat
  h : Nat
  deriving Repr

def sha256Round (st : Sha256State) (kw : Nat × Nat) : Sha256State :=
  let S1 := (rotr32 6 st.e) ^^^ (rotr32 11 st.e) ^^^ (rotr32 25 st.e)
  let ch := (st.e &&& st.f) ^^^ ((st.e ^^^ 0xffffffff) &&& st.g)
  let temp1 := u32 (st.h + S1 + ch + kw.1 + kw.2)
  let S0 := (rotr32 2 st.a) ^^^ (rotr32 13 st.a) ^^^ (rotr32 22 st.a)
  let maj := (st.a &&& st.b) ^^^ (st.a &&& st.c) ^^^ (st.b &&& st.c)
  let temp2 := u32 (S0 + maj)
  { a := u32 (temp1 + temp2), b := st.a, c := st.b, d := st.c,
    e := u32 (st.d + temp1), f := st.e, g := st.f, h := st.g }

/-- One SHA-256 compression of a 64-byte block into the running hash. -/
def sha256Compress (h : List Nat) (block : List Nat) : List Nat :=
  let w := (List.range 48).foldl schedStep (bytesToWords block)
  let init : Sha256State :=
    { a := h.getD 0 0, b := h.getD 1 0, c := h.getD 2 0, d := h.getD 3 0,
      e := h.getD 4 0, f := h.getD 5 0, g := h.getD 6 0, h := h.getD 7 0 }
  let st := (sha256K.zip w).foldl sha256Round init
  [u32 (h.getD 0 0 + st.a), u32 (h.getD 1 0 + st.b), u32 (h.getD 2 0 + st.c),
   u32 (h.getD 3 0 + st.d), u32 (h.getD 4 0 + st.e), u32 (h.getD 5 0 + st.f),
   u32 (h.getD 6 0 + st.g), u32 (h.getD 7 0 + st.h)]

/-- Split into 64-byte blocks (`fuel` bounds the number of blocks). -/
def chunks64 : Nat → List Nat → List (List Nat)
  | 0, _ => []
  | _, [] => []
  | fuel + 1, bs => bs.take 64 :: chunks64 fuel (bs.drop 64)

/-- SHA-256 of a byte string, as 32 bytes. -/
def sha256 (msg : List Nat) : List Nat :=
  let padded := msg ++ [0x80] ++
    List.replicate ((64 + 55 - (msg.length % 64)) % 64) 0 ++ toBytesBE 8 (msg.length * 8)
  let hs := (chunks64 (padded.length / 64) padded).foldl sha256Compress sha256H0
  hs.flatMap (toBytesBE 4)

/-- HMAC-SHA256 (`hmac.new(secret, data, 'sha256').digest()`), 64-byte block
size. -/
def hmacSha256 (key msg : List Nat) : List Nat :=
  let key := if 64 < key.length then sha256 key else key
  let key := key ++ List.replicate (64 - key.length) 0
  let ipad := key.map (fun b => b ^^^ 0x36)
  let opad := key.map (fun b => b ^^^ 0x5c)
  sha256 (opad ++ sha256 (ipad ++ msg))

/-- The HOTP value of `generate_signup_code` for a given minute counter:
dynamic truncation of the HMAC of the 8-byte big-endian minute, `% 2**31`,
`% 16**6`. -/
def signupCodeAtMinute (secret : List Nat) (unixMinutes : Nat) : Nat :=
  let data := toBytesBE 8 unixMinutes
  let mac := hmacSha256 secret data
  let i := mac.getLastD 0 % 16
  let trun := fromBytesBE ((mac.drop i).take 4) % 2 ^ 31
  trun % 16 ^ 6

/-- Python `format(hexa, "06x")`: lowercase hexadecimal, zero-padded to six
digits. -/
def format06x (n : Nat) : String :=
  let hexDigit := fun (d : Nat) =>
    if d < 10 then Char.ofNat (48 + d) else Char.ofNat (87 + d)
  let ds := [n / 16 ^ 5 % 16, n / 16 ^ 4 % 16, n / 16 ^ 3 % 16,
             n / 16 ^ 2 % 16, n / 16 % 16, n % 16]
  if n < 16 ^ 6 then (ds.map hexDigit).asString
  else (Nat.toDigits 16 n).asString

/-- Model of `generate_signup_code(hmac_secret, unix_time)` (auth.py lines 154–168):
the token string for the minute `unix_time // 60`. -/
def generate_signup_code (secret : List Nat) (unix_time : Nat) : String :=
  format06x (signupCodeAtMinute secret (unix_time / 60))

/-- The per-provider loop body of `verify_signup_code` (auth.py lines
191–197): try `offset in range(-2, 7)` in order; accept on the first token
match.  A negative minute counter would make `int.to_bytes(8, 'big',
signed=False)` raise `OverflowError`. -/
def verifyLoop (secret : List Nat) (current_time : Int) (token : String) :
    List Int → Except PyErr Bool
  | [] => .ok false
  | o :: os =>
      let m := (current_time + o * 60).fdiv 60
      if m < 0 then .error .overflowError
      else if token = format06x (signupCodeAtMinute secret m.toNat) then .ok true
      else verifyLoop secret current_time token os

/-- Model of `verify_signup_code` restricted to a single matched provider with secret
`secret`, at wall-clock time `current_time` (seconds). -/
def verify_signup_code_with (secret : List Nat) (current_time : Int) (token : String) :
    Except PyErr Bool :=
  verifyLoop secret current_time token [-2, -1, 0, 1, 2, 3, 4, 5, 6]

/-- Claim C8 as stated: for every 32-byte secret, a code generated at minute
`t` is accepted by a verification run at any minute `v ∈ [t−2, t+6]` and
rejected at any minute outside that window.  (Both instants sit on exact
minute boundaries at least two minutes past the epoch, keeping every minute
counter the loop derives non-negative.) -/
def c8ClaimStatement : Prop :=
  ∀ secret : List Nat, secret.length = 32 →
  ∀ t v : Nat, 2 ≤ t → 2 ≤ v →
    ((t ≤ v + 2 ∧ v ≤ t + 6) →
      verify_signup_code_with secret ((v : Int) * 60)
        (generate_signup_code secret (t * 60)) = .ok true) ∧
    ((t + 6 < v ∨ v + 2 < t) →
      verify_signup_code_with secret ((v : Int) * 60)
        (generate_signup_code secret (t * 60)) = .ok false)

/-! ## Helper lemmas -/

theorem decrementGroups_not_mem {γ : Type} [DecidableEq γ] (gs : List γ)
    (counts : γ → Nat) (g : γ) (hg : g ∉ gs) :
    decrementGroups gs counts g = counts g := by
  induction gs generalizing counts with
  | nil => rfl
  | cons g0 rest ih =>
      have hstep : decrementGroups (g0 :: rest) counts =
          decrementGroups rest
            (fun g' => if g' = g0 then (if counts g0 > 0 then counts g0 - 1 else counts g0)
                       else counts g') := rfl
      rw [hstep, ih _ (fun h => hg (List.mem_cons_of_mem _ h))]
      simp only [if_neg (fun h : g = g0 => hg (h ▸ List.mem_cons_self g0 rest))]

theorem decrementGroups_mem {γ : Type} [DecidableEq γ] (gs : List γ) (hnd : gs.Nodup)
    (counts : γ → Nat) (g : γ) (hg : g ∈ gs) (hpos : 0 < counts g) :
    decrementGroups gs counts g = counts g - 1 := by
  induction gs generalizing counts with
  | nil => cases hg
  | cons g0 rest ih =>
      have hstep : decrementGroups (g0 :: rest) counts =
          decrementGroups rest
            (fun g' => if g' = g0 then (if counts g0 > 0 then counts g0 - 1 else counts g0)
                       else counts g') := rfl
      rcases List.nodup_cons.mp hnd with ⟨h0, hrest⟩
      rcases List.mem_cons.mp hg with rfl | hmem
      · rw [hstep, decrementGroups_not_mem _ _ _ h0]
        simp [hpos]
      · have hne : g ≠ g0 := fun h => h0 (h ▸ hmem)
        rw [hstep, ih hrest _ hmem]
        · simp [hne]
        · simpa [hne] using hpos

/-! ### Lemmas on `populate_user_courses` -/

theorem teacherFix_code (c : CourseDoc) (it : TTItem) :
    (teacherFix c it).course_code = c.course_code := by
  unfold teacherFix; split <;> rfl

theorem teacherFix_slots (c : CourseDoc) (it : TTItem) :
    (teacherFix c it).known_slots = c.known_slots := by
  unfold teacherFix; split <;> rfl

theorem slotFix_code (c : CourseDoc) (it : TTItem) :
    (slotFix c it).course_code = c.course_code := by
  unfold slotFix; split <;> rfl

theorem slotFix_teacher (c : CourseDoc) (it : TTItem) :
    (slotFix c it).teacher_name = c.teacher_name := by
  unfold slotFix; split <;> rfl

theorem slotFix_mem (c : CourseDoc) (it : TTItem) :
    slotStr it ∈ (slotFix c it).known_slots := by
  unfold slotFix; split
  · assumption
  · simp

theorem slotFix_mem_mono {c : CourseDoc} {x : String} (it : TTItem)
    (h : x ∈ c.known_slots) : x ∈ (slotFix c it).known_slots := by
  unfold slotFix; split
  · exact h
  · simp [h]

theorem teacherFix_teacher_ne {c : CourseDoc} (it : TTItem)
    (h : c.teacher_name ≠ "") : teacherFix c it = c := by
  unfold teacherFix
  rw [if_neg h]

/-- When the item's slot and teacher are already absorbed, the loop's two
fix-ups change nothing. -/
theorem fix_id {c : CourseDoc} {it : TTItem} (hslot : slotStr it ∈ c.known_slots)
    (hteach : it.course_teacher_name ≠ "" → c.teacher_name ≠ "") :
    slotFix (teacherFix c it) it = c := by
  have ht : teacherFix c it = c := by
    by_cases hT : c.teacher_name = ""
    · have hit : it.course_teacher_name = "" := by
        by_contra hne
        exact hteach hne hT
      unfold teacherFix
      rw [if_pos hT, hit, ← hT]
    · exact teacherFix_teacher_ne it hT
  rw [ht]
  unfold slotFix
  rw [if_pos hslot]

theorem replaceFirst_self : ∀ {db : List CourseDoc} {code : String} {c : CourseDoc},
    db.find? (fun x => x.course_code = code) = some c →
    replaceFirstByCode db code c = db := by
  intro db
  induction db with
  | nil => intro code c h; cases h
  | cons x rest ih =>
      intro code c h
      by_cases hx : x.course_code = code
      · rw [List.find?_cons_of_pos _ (by simpa using hx)] at h
        cases h
        simp [replaceFirstByCode, hx]
      · rw [List.find?_cons_of_neg _ (by simpa using hx)] at h
        simp [replaceFirstByCode, hx, ih h]

theorem find?_replaceFirst : ∀ {db : List CourseDoc} {code : String} {c c0 : CourseDoc},
    db.find? (fun x => x.course_code = code) = some c0 →
    c.course_code = code →
    (replaceFirstByCode db code c).find? (fun x => x.course_code = code) = some c := by
  intro db
  induction db with
  | nil => intro code c c0 h _; cases h
  | cons x rest ih =>
      intro code c c0 h hc
      by_cases hx : x.course_code = code
      · simp only [replaceFirstByCode, if_pos hx]
        exact List.find?_cons_of_pos _ (by simpa using hc)
      · rw [List.find?_cons_of_neg _ (by simpa using hx)] at h
        simp only [replaceFirstByCode, if_neg hx]
        rw [List.find?_cons_of_neg _ (by simpa using hx)]
        exact ih h hc

theorem find?_replaceFirst_other : ∀ {db : List CourseDoc} {code code' : String}
    {c : CourseDoc}, code' ≠ code → c.course_code = code →
    (replaceFirstByCode db code c).find? (fun x => x.course_code = code') =
      db.find? (fun x => x.course_code = code') := by
  intro db
  induction db with
  | nil => intro code code' c _ _; rfl
  | cons x rest ih =>
      intro code code' c hne hc
      by_cases hx : x.course_code = code
      · have hxne : ¬ x.course_code = code' := fun h => hne (h.symm.trans hx)
        have hcne : ¬ c.course_code = code' := fun h => hne (h.symm.trans hc)
        simp only [replaceFirstByCode, if_pos hx]
        rw [List.find?_cons_of_neg _ (by simpa using hcne),
            List.find?_cons_of_neg _ (by simpa using hxne)]
      · simp only [replaceFirstByCode, if_neg hx]
        by_cases hx' : x.course_code = code'
        · rw [List.find?_cons_of_pos _ (by simpa using hx'),
              List.find?_cons_of_pos _ (by simpa using hx')]
        · rw [List.find?_cons_of_neg _ (by simpa using hx'),
              List.find?_cons_of_neg _ (by simpa using hx')]
          exact ih hne hc

theorem popStep_pair (db : List CourseDoc) (uc : List String) (it : TTItem) :
    popStep (db, uc) it = (dbStep db it, ucStep uc it) := by
  unfold dbStep popStep
  dsimp only
  cases List.find? (fun c : CourseDoc => decide (c.course_code = it.course_code)) db <;> rfl

theorem foldl_popStep (items : List TTItem) : ∀ (db : List CourseDoc) (uc : List String),
    items.foldl popStep (db, uc) = (items.foldl dbStep db, items.foldl ucStep uc) := by
  induction items with
  | nil => intro db uc; rfl
  | cons it rest ih =>
      intro db uc
      rw [List.foldl_cons, popStep_pair, ih, List.foldl_cons, List.foldl_cons]

/-- Processing an absorbed item leaves the collection unchanged. -/
theorem absorbed_dbStep_id {it : TTItem} {db : List CourseDoc} (h : Absorbed it db) :
    dbStep db it = db := by
  obtain ⟨c, hf, hs, ht⟩ := h
  unfold dbStep popStep
  dsimp only
  rw [hf]
  dsimp only
  rw [fix_id hs ht]
  exact replaceFirst_self hf

/-- Processing an item absorbs it. -/
theorem absorbed_dbStep_self (it : TTItem) (db : List CourseDoc) :
    Absorbed it (dbStep db it) := by
  unfold dbStep popStep
  dsimp only
  cases hf : List.find? (fun c : CourseDoc => decide (c.course_code = it.course_code)) db with
  | none =>
      dsimp only
      refine ⟨slotFix ⟨it.course_code, it.course_teacher_name, []⟩ it, ?_, slotFix_mem _ _, ?_⟩
      · rw [List.find?_append, hf]
        rw [List.find?_cons_of_pos _ (by simp [slotFix_code])]
        rfl
      · intro hit
        rw [slotFix_teacher]
        exact hit
  | some c =>
      dsimp only
      have hcode : c.course_code = it.course_code := by
        simpa using List.find?_some hf
      refine ⟨slotFix (teacherFix c it) it, ?_, slotFix_mem _ _, ?_⟩
      · exact find?_replaceFirst hf (by rw [slotFix_code, teacherFix_code, hcode])
      · intro hit
        rw [slotFix_teacher]
        unfold teacherFix
        split
        · exact hit
        · assumption

/-- Processing any other item preserves absorption. -/
theorem absorbed_dbStep_mono {i : TTItem} {db : List CourseDoc} (h : Absorbed i db)
    (j : TTItem) : Absorbed i (dbStep db j) := by
  obtain ⟨c, hf, hs, ht⟩ := h
  unfold dbStep popStep
  dsimp only
  by_cases hcode : j.course_code = i.course_code
  · rw [hcode, hf]
    dsimp only
    have hcc : c.course_code = i.course_code := by simpa using List.find?_some hf
    refine ⟨slotFix (teacherFix c j) j, ?_, ?_, ?_⟩
    · exact find?_replaceFirst hf (by rw [slotFix_code, teacherFix_code, hcc])
    · exact slotFix_mem_mono _ (by rw [teacherFix_slots]; exact hs)
    · intro hit
      rw [slotFix_teacher]
      unfold teacherFix
      split
      next hT => exact absurd hT (ht hit)
      next _ => exact ht hit
  · cases hg : List.find? (fun c : CourseDoc => decide (c.course_code = j.course_code)) db with
    | none =>
        dsimp only
        refine ⟨c, ?_, hs, ht⟩
        rw [List.find?_append, hf]
        rfl
    | some c0 =>
        dsimp only
        have hc0 : c0.course_code = j.course_code := by simpa using List.find?_some hg
        refine ⟨c, ?_, hs, ht⟩
        rw [find?_replaceFirst_other (fun hh => hcode hh.symm)
              (by rw [slotFix_code, teacherFix_code, hc0])]
        exact hf

theorem absorbed_foldl_mono {i : TTItem} (l : List TTItem) :
    ∀ {db : List CourseDoc}, Absorbed i db → Absorbed i (l.foldl dbStep db) := by
  induction l with
  | nil => intro db h; exact h
  | cons j rest ih => intro db h; exact ih (absorbed_dbStep_mono h j)

theorem absorbed_foldl_all (items : List TTItem) :
    ∀ (db : List CourseDoc), ∀ i ∈ items, Absorbed i (items.foldl dbStep db) := by
  induction items with
  | nil => intro db i hi; cases hi
  | cons j rest ih =>
      intro db i hi
      rcases List.mem_cons.mp hi with rfl | hmem
      · exact absorbed_foldl_mono rest (absorbed_dbStep_self i db)
      · exact ih (dbStep db j) i hmem

theorem foldl_dbStep_absorbed : ∀ (items : List TTItem) (db : List CourseDoc),
    (∀ i ∈ items, Absorbed i db) → items.foldl dbStep db = db := by
  intro items
  induction items with
  | nil => intro db _; rfl
  | cons j rest ih =>
      intro db h
      rw [List.foldl_cons, absorbed_dbStep_id (h j (List.mem_cons_self _ _))]
      exact ih db (fun i hi => h i (List.mem_cons_of_mem _ hi))

/-! ### Lemmas on the signup-code verification loop -/

theorem minute_arith (v : Nat) (o : Int) :
    ((v : Int) * 60 + o * 60).fdiv 60 = (v : Int) + o := by
  have h : (v : Int) * 60 + o * 60 = ((v : Int) + o) * 60 := by ring
  rw [h, Int.mul_fdiv_cancel _ (by norm_num)]

/-- The per-provider offset loop accepts as soon as some offset's code
matches the token (provided no earlier offset underflows the epoch). -/
theorem verifyLoop_ok_true (secret : List Nat) (v : Nat) (token : String) :
    ∀ os : List Int, (∀ o ∈ os, 0 ≤ (v : Int) + o) →
    (∃ o ∈ os, token = format06x (signupCodeAtMinute secret ((v : Int) + o).toNat)) →
    verifyLoop secret ((v : Int) * 60) token os = .ok true := by
  intro os
  induction os with
  | nil =>
      intro _ hex
      rcases hex with ⟨o, ho, _⟩
      cases ho
  | cons o0 rest ih =>
      intro hnn hex
      unfold verifyLoop
      dsimp only
      rw [minute_arith]
      rw [if_neg (not_lt.mpr (hnn o0 (List.mem_cons_self _ _)))]
      by_cases ht : token = format06x (signupCodeAtMinute secret (((v : Int) + o0).toNat))
      · rw [if_pos ht]
      · rw [if_neg ht]
        apply ih (fun o ho => hnn o (List.mem_cons_of_mem _ ho))
        rcases hex with ⟨o, ho, heq⟩
        rcases List.mem_cons.mp ho with rfl | hmem
        · exact absurd heq ht
        · exact ⟨o, hmem, heq⟩

/-- The loop rejects when no offset's code matches the token. -/
theorem verifyLoop_ok_false (secret : List Nat) (v : Nat) (token : String) :
    ∀ os : List Int, (∀ o ∈ os, 0 ≤ (v : Int) + o) →
    (∀ o ∈ os, token ≠ format06x (signupCodeAtMinute secret ((v : Int) + o).toNat)) →
    verifyLoop secret ((v : Int) * 60) token os = .ok false := by
  intro os
  induction os with
  | nil => intro _ _; rfl
  | cons o0 rest ih =>
      intro hnn hno
      unfold verifyLoop
      dsimp only
      rw [minute_arith]
      rw [if_neg (not_lt.mpr (hnn o0 (List.mem_cons_self _ _)))]
      rw [if_neg (hno o0 (List.mem_cons_self _ _))]
      exact ih (fun o ho => hnn o (List.mem_cons_of_mem _ ho))
        (fun o ho => hno o (List.mem_cons_of_mem _ ho))

/-! ## Claim theorems -/

deriving instance DecidableEq for Except

/-- Auxiliary constant oracle for `random.randint` (no claim exercises the
`random` builtin). -/
def rnd0 : Int → Int → Int := fun _ _ => 0

/-- C1: the claim expects the Ada Lovelace scenario — a text field targeting
`$first_name + ' ' + $last_name` and a critical date field targeting
`$today`, with today = 2024-01-15 — to fill "Ada Lovelace" and the date,
submit, and persist a `success` last-fill-result with two screenshot blob
ids.  The field expressions do evaluate to exactly those values (first
conjunct), but `tasks.py` hands `ghoster.fill_form` 4-tuples where it
unpacks 5-tuples (and would unpack ghoster's 3-tuple result into 2), so the
run raises `ValueError`, lands in the catch-all, persists a `failure`
last-result with no screenshots, and raises a retry `TaskError` (second
conjunct): the claimed successful run is impossible. -/
theorem c1_fill_form_arity_bug :
    buildFields rnd0
      [("name", .str "Lovelace, Ada"), ("first_name", .str "Ada"),
       ("last_name", .str "Lovelace"), ("student_number", .str "0123456"),
       ("email", .str "ada@example.com"), ("today", .date 2024 1 15),
       ("grade", .int 12), ("course_code", .str "MCV4U1-a"),
       ("teacher_name", .str "Teach"), ("teacher_email", .str ""), ("day_cycle", .int 1)]
      [⟨some "Name", 0, "$first_name + ' ' + $last_name", .TEXT⟩,
       ⟨none, 1, "$today", .DATE⟩] =
      .ok [[.nat 0, .str "Name", .kind .TEXT, .val (.str "Ada Lovelace")],
           [.nat 1, .str "", .kind .DATE, .val (.date 2024 1 15)]]
    ∧ fillFormTail rnd0 0 true 7
        [("name", .str "Lovelace, Ada"), ("first_name", .str "Ada"),
         ("last_name", .str "Lovelace"), ("student_number", .str "0123456"),
         ("email", .str "ada@example.com"), ("today", .date 2024 1 15),
         ("grade", .int 12), ("course_code", .str "MCV4U1-a"),
         ("teacher_name", .str "Teach"), ("teacher_email", .str ""), ("day_cycle", .int 1)]
        [⟨some "Name", 0, "$first_name + ' ' + $last_name", .TEXT⟩,
         ⟨none, 1, "$today", .DATE⟩]
        11 12 13 14 15 999 =
      (some ⟨.FAILURE, some 7, none, none⟩, .taskError (some 1800)) :=
  ⟨by decide, by decide⟩

/-- C2: the claim states that *every* task completion — return, retry error,
or any other exception — decrements the counters of the task's groups back
to their pre-dispatch values.  In `Scheduler._run_task` the
`except Exception` branch `return`s before the decrement loop, so on an
unhandled handler exception the counters stay at their incremented values:
here a fill-form task's handler raises, the task is removed, and every
counter is still 1 (not the decremented 0 shown in the last conjunct). -/
theorem c2_counters_not_decremented_on_exception :
    runTask ⟨.FILL_FORM, 0, true, 0⟩ .otherException 0 lockboxGroups (fun _ => 1) =
      (.removed, fun _ => 1)
    ∧ (runTask ⟨.FILL_FORM, 0, true, 0⟩ (.success (some 5)) 0 lockboxGroups
        (fun _ => 1)).2 "firefox" = 0
    ∧ (runTask ⟨.FILL_FORM, 0, true, 0⟩ (.taskError (some 5)) 0 lockboxGroups
        (fun _ => 1)).2 "firefox" = 0
    ∧ decrementGroups (lockboxGroups .FILL_FORM) (fun _ => 1) "firefox" = 0 :=
  ⟨rfl, by decide, by decide, by decide⟩

/-- Statement of `checkDayPushFilter` as a proposition. -/
theorem checkDayPushFilter_iff (tzOff now : Int) (t : TaskDoc) :
    checkDayPushFilter tzOff now t = true ↔
      (t.kind = TaskType.FILL_FORM ∧ now ≤ t.next_run_at
        ∧ t.next_run_at < nextLocalMidnight tzOff now) := by
  simp [checkDayPushFilter, and_assoc]

/-- Concrete instants for the C3 scenario, with the local timezone at UTC
(`tzOff = 0`): the no-school check-day run happens at 04:00 local on day
19000 after the epoch; the two fill-form tasks are scheduled at 08:00 the
next day and at 08:00 the day after. -/
def c3now : Int := 19000 * 86400 + 4 * 3600

def c3task1 : TaskDoc := ⟨.FILL_FORM, 19001 * 86400 + 8 * 3600, false, 0⟩

def c3task2 : TaskDoc := ⟨.FILL_FORM, 19002 * 86400 + 8 * 3600, false, 0⟩

/-- C3, counterexample: the claim's "in particular" instance says that of
two fill-form tasks at tomorrow 08:00 local and the day after 08:00 local, a
no-school check-day run pushes exactly the first by +24 h.  The code's
update filter is `now ≤ next_run_at < next local midnight`, so a no-school
run during today touches *neither* task: both come back unchanged, and the
result is not the claimed list with the first task moved. -/
theorem c3_counterexample_tomorrow_not_pushed :
    checkDayNoSchool 0 c3now [c3task1, c3task2] = (-1, [c3task1, c3task2])
    ∧ (checkDayNoSchool 0 c3now [c3task1, c3task2]).2 ≠
        [{ c3task1 with next_run_at := c3task1.next_run_at + 86400 }, c3task2] := by
  constructor
  · decide
  · decide

/-- C3, amended: a no-school check-day run sets the process-local
`current_day` to −1 and pushes forward by 24 h exactly those fill-form
tasks whose `next_run_at` lies in `[now, next local midnight)` — i.e. later
today, local time; every task scheduled on a later local day (tomorrow
08:00 included) is unchanged. -/
theorem c3_no_school_push_window (tzOff now : Int) (tasks : List TaskDoc) (i : Nat)
    (h : i < tasks.length) :
    (checkDayNoSchool tzOff now tasks).1 = -1
    ∧ (checkDayNoSchool tzOff now tasks).2[i]? =
        some (if tasks[i].kind = TaskType.FILL_FORM ∧ now ≤ tasks[i].next_run_at
                ∧ tasks[i].next_run_at < nextLocalMidnight tzOff now
              then { tasks[i] with next_run_at := tasks[i].next_run_at + 86400 }
              else tasks[i]) := by
  refine ⟨rfl, ?_⟩
  simp only [checkDayNoSchool, List.getElem?_map, List.getElem?_eq_getElem h,
    Option.map_some']
  by_cases hb : checkDayPushFilter tzOff now tasks[i] = true
  · rw [if_pos hb, if_pos ((checkDayPushFilter_iff tzOff now _).mp hb)]
  · rw [if_neg (by simpa using hb),
        if_neg (fun hc => hb ((checkDayPushFilter_iff tzOff now _).mpr hc))]

theorem c3_no_school_push_window_witness :
    0 < ([c3task1] : List TaskDoc).length
    ∧ ((checkDayNoSchool 0 c3now [c3task1]).1 = -1
       ∧ (checkDayNoSchool 0 c3now [c3task1]).2[0]? =
           some (if c3task1.kind = TaskType.FILL_FORM ∧ c3now ≤ c3task1.next_run_at
                   ∧ c3task1.next_run_at < nextLocalMidnight 0 c3now
                 then { c3task1 with next_run_at := c3task1.next_run_at + 86400 }
                 else c3task1)) :=
  ⟨by decide, c3_no_school_push_window 0 c3now [c3task1] 0 (by decide)⟩

/-- C4: after `Scheduler.start()` has run `_init`, no task in the collection
has `is_running = true`: `_init` commits every running task back with
`is_running = false` before the main loop is spawned. -/
theorem c4_no_running_task_after_init (tasks : List TaskDoc) (t : TaskDoc)
    (h : t ∈ schedInit tasks) : t.is_running = false := by
  rcases List.mem_map.mp h with ⟨a, _, rfl⟩
  by_cases hr : a.is_running <;> simp [hr]

theorem c4_no_running_task_after_init_witness :
    (⟨.FILL_FORM, 3, false, 1⟩ : TaskDoc) ∈ schedInit [⟨.FILL_FORM, 3, true, 1⟩]
    ∧ (⟨.FILL_FORM, 3, false, 1⟩ : TaskDoc).is_running = false :=
  ⟨by decide, c4_no_running_task_after_init [⟨.FILL_FORM, 3, true, 1⟩] _ (by decide)⟩

/-- C5: a handler raising a retry `TaskError` with `retry_in = r` makes the
scheduler persist the task with `next_run_at = now + r`, `retry_count`
incremented and `is_running = false` (after decrementing the group
counters); a retry `TaskError` without `retry_in` deletes the task.  The
final conjuncts pin down the counter effect: each group containing the kind
is decremented by one, the others are untouched. -/
theorem c5_retry_error_semantics (task : TaskDoc) (now r : Int)
    (groups : TaskType → List String) (counts : String → Nat)
    (hnd : (groups task.kind).Nodup) :
    runTask task (.taskError (some r)) now groups counts =
      (.persisted ({ task with
                     next_run_at := now + r,
                     is_running := false,
                     retry_count := task.retry_count + 1 }),
       decrementGroups (groups task.kind) counts)
    ∧ (runTask task (.taskError none) now groups counts).1 = .removed
    ∧ (∀ g ∈ groups task.kind, 0 < counts g →
        (runTask task (.taskError (some r)) now groups counts).2 g = counts g - 1)
    ∧ (∀ g, g ∉ groups task.kind →
        (runTask task (.taskError (some r)) now groups counts).2 g = counts g) :=
  ⟨rfl, rfl,
   fun g hg hpos => decrementGroups_mem _ hnd counts g hg hpos,
   fun g hg => decrementGroups_not_mem _ counts g hg⟩

theorem c5_retry_error_semantics_witness :
    (lockboxGroups (TaskDoc.kind ⟨.FILL_FORM, 0, true, 2⟩)).Nodup
    ∧ (runTask ⟨.FILL_FORM, 0, true, 2⟩ (.taskError (some 1800)) 100 lockboxGroups
         (fun _ => 1) =
        (.persisted ⟨.FILL_FORM, 100 + 1800, false, 2 + 1⟩,
         decrementGroups (lockboxGroups (TaskDoc.kind ⟨.FILL_FORM, 0, true, 2⟩)) (fun _ => 1))
       ∧ (runTask ⟨.FILL_FORM, 0, true, 2⟩ (.taskError none) 100 lockboxGroups
           (fun _ => 1)).1 = .removed
       ∧ (∀ g ∈ lockboxGroups (TaskDoc.kind ⟨.FILL_FORM, 0, true, 2⟩), 0 < (fun _ => 1 : String → Nat) g →
           (runTask ⟨.FILL_FORM, 0, true, 2⟩ (.taskError (some 1800)) 100 lockboxGroups
             (fun _ => 1)).2 g = (fun _ => 1 : String → Nat) g - 1)
       ∧ (∀ g, g ∉ lockboxGroups (TaskDoc.kind ⟨.FILL_FORM, 0, true, 2⟩) →
           (runTask ⟨.FILL_FORM, 0, true, 2⟩ (.taskError (some 1800)) 100 lockboxGroups
             (fun _ => 1)).2 g = (fun _ => 1 : String → Nat) g)) :=
  ⟨by decide, c5_retry_error_semantics ⟨.FILL_FORM, 0, true, 2⟩ 100 1800 lockboxGroups
     (fun _ => 1) (by decide)⟩

/-- C6: the claim lists seven task kinds including `get-form-geometry` and
`remove-old-form-geometry`, and expects `POST /form_geometry` on a fresh URL
to create a pending `CachedFormGeometry`, enqueue those two tasks, and
return a pending response.  The `TaskType` enum declares only five members —
with value `remove-old-test-result`, not the claimed
`remove-old-test-results` — while `db.get_form_geometry` both passes the
undeclared field `grab_screenshot` when constructing the cache entry
(`ValidationError` → 400 invalid-field) and references the missing enum
members `GET_FORM_GEOMETRY` / `REMOVE_OLD_FORM_GEOMETRY`
(`AttributeError`): no tasks are ever enqueued and no pending response is
returned. -/
theorem c6_task_kinds_and_form_geometry :
    getFormGeometryFreshUrl = .invalidFieldError
    ∧ (∀ b, getFormGeometryFreshUrl ≠ .pendingResponse b)
    ∧ TaskType.fromName "GET_FORM_GEOMETRY" = none
    ∧ TaskType.fromName "REMOVE_OLD_FORM_GEOMETRY" = none
    ∧ TaskType.members.map TaskType.value =
        ["fill-form", "check-day", "populate-courses", "test-fill-form",
         "remove-old-test-result"]
    ∧ (∀ k : TaskType, k ∈ TaskType.members)
    ∧ "get-form-geometry" ∉ TaskType.members.map TaskType.value
    ∧ "remove-old-form-geometry" ∉ TaskType.members.map TaskType.value
    ∧ TaskType.REMOVE_OLD_TEST_RESULTS.value ∉ claimedTaskKinds := by
  have h1 : getFormGeometryFreshUrl = .invalidFieldError := by decide
  refine ⟨h1, ?_, by decide, by decide, by decide, ?_, by decide, by decide, by decide⟩
  · intro b h
    rw [h1] at h
    cases h
  · intro k
    cases k <;> decide

/-- C7: evaluating `padl(substr($student_number, 1, 4), '0', 5)` does *not*
return `"00123"`: the `padl` builtin builds the format spec `"{0>5}"` (the
f-string's doubled braces put literal braces around the spec), which is an
invalid format specifier, so the evaluation raises `ValueError`.  The
second example `if($grade >= 12, 'sr', 'jr')` with `$grade = 12` does
return `"sr"`, and the last conjunct shows the intended spec (without the
braces) would have produced `"00123"`. -/
theorem c7_padl_format_spec_invalid :
    interpret rnd0 "padl(substr($student_number, 1, 4), '0', 5)"
      [("first_name", .str "Ada"), ("student_number", .str "0123456")] =
      .error .valueError
    ∧ interpret rnd0 "if($grade >= 12, 'sr', 'jr')" [("grade", .int 12)] =
      .ok (.str "sr")
    ∧ interpret rnd0 "substr($student_number, 1, 4)"
        [("first_name", .str "Ada"), ("student_number", .str "0123456")] =
      .ok (.str "123")
    ∧ pyFormatStr "123" "0>5" = .ok "00123" :=
  ⟨by decide, by decide, by decide, by decide⟩

/-- C10: whenever `test_fill_form` finds its `FormFillingTest` document, the
document it commits has `is_finished = true` and `in_progress = false` when
the handler ends — the `finally` block runs whether the inner fill attempt
returns or raises. -/
theorem c10_found_test_always_finished {σ : Type} (ctx : FormFillingTestDoc σ)
    (retries : Nat) (now : Int) (inner : InnerFillOutcome σ)
    (ctx' : FormFillingTestDoc σ)
    (h : (testFillForm (some ctx) retries now inner).1 = some ctx') :
    ctx'.is_finished = true ∧ ctx'.in_progress = false := by
  cases inner <;> simp only [testFillForm, Option.some.injEq] at h <;>
    exact h ▸ ⟨rfl, rfl⟩

/-- C8, counterexample: the claim as stated is false.  `verify_signup_code`
compares the token against the codes of the nine *generation* minutes
`v−2 … v+6` around the verification minute `v`, so a code generated at `t`
is accepted for `v ∈ [t−6, t+2]` — the claim's window `[t−2, t+6]` runs the
wrong way — and unconditional rejection outside any window is impossible:
the 6-hex token space has only `16^6` values, so among `16^6 + 1` minutes
spaced 100 apart two share their token (pigeonhole), and verification at
one of them accepts the code generated at the other although they are more
than 6 minutes apart. -/
theorem c8_claim_false : ¬ c8ClaimStatement := by
  intro hclaim
  have hlen : (List.replicate 32 0 : List Nat).length = 32 := by simp
  obtain ⟨i, j, hij, heq⟩ := Fintype.exists_ne_map_eq_of_card_lt
    (fun i : Fin (16 ^ 6 + 1) =>
      (⟨signupCodeAtMinute (List.replicate 32 0) (100 * (i.val + 1)),
        Nat.mod_lt _ (by norm_num)⟩ : Fin (16 ^ 6)))
    (by simp only [Fintype.card_fin]; norm_num)
  have hvalne : i.val ≠ j.val := fun h => hij (Fin.ext h)
  obtain ⟨a, b, hab, hcode⟩ : ∃ a b : Nat, a < b ∧
      signupCodeAtMinute (List.replicate 32 0) (100 * (a + 1)) =
        signupCodeAtMinute (List.replicate 32 0) (100 * (b + 1)) := by
    rcases lt_or_gt_of_ne hvalne with h | h
    · exact ⟨i.val, j.val, h, congrArg Fin.val heq⟩
    · exact ⟨j.val, i.val, h, (congrArg Fin.val heq).symm⟩
  have hrej := (hclaim (List.replicate 32 0) hlen (100 * (a + 1)) (100 * (b + 1))
    (by omega) (by omega)).2 (Or.inl (by omega))
  have hacc : verify_signup_code_with (List.replicate 32 0)
      (((100 * (b + 1) : Nat) : Int) * 60)
      (generate_signup_code (List.replicate 32 0) (100 * (a + 1) * 60)) = .ok true := by
    unfold verify_signup_code_with generate_signup_code
    apply verifyLoop_ok_true
    · intro o ho
      fin_cases ho <;> omega
    · refine ⟨0, by simp, ?_⟩
      have h0 : (((100 * (b + 1) : Nat) : Int) + 0).toNat = 100 * (b + 1) := by omega
      rw [h0, Nat.mul_div_cancel _ (by norm_num)]
      exact congrArg format06x hcode
  rw [hrej] at hacc
  cases hacc

/-- C8, amended: a code generated at minute `t` is accepted by a
verification run at any minute `v ∈ [t−6, t+2]` (the loop tries the
generation minutes `v−2 … v+6`); and a verification run at minute `v`
rejects a token exactly when it differs from each of those nine minutes'
codes — so rejection outside the window holds unless the token collides
with one of them. -/
theorem c8_verification_window (secret : List Nat) (v : Nat) (h2 : 2 ≤ v) :
    (∀ t : Nat, v ≤ t + 2 → t ≤ v + 6 →
       verify_signup_code_with secret ((v : Int) * 60)
         (generate_signup_code secret (t * 60)) = .ok true)
    ∧ (∀ token : String,
        (∀ m : Nat, v ≤ m + 2 → m ≤ v + 6 →
          token ≠ format06x (signupCodeAtMinute secret m)) →
        verify_signup_code_with secret ((v : Int) * 60) token = .ok false) := by
  constructor
  · intro t hlo hhi
    unfold verify_signup_code_with generate_signup_code
    apply verifyLoop_ok_true
    · intro o ho
      fin_cases ho <;> omega
    · refine ⟨(t : Int) - v, ?_, ?_⟩
      · simp
        omega
      · have ht : ((v : Int) + ((t : Int) - v)).toNat = t := by omega
        rw [ht, Nat.mul_div_cancel _ (by norm_num)]
  · intro token hno
    unfold verify_signup_code_with
    apply verifyLoop_ok_false
    · intro o ho
      fin_cases ho <;> omega
    · intro o ho
      apply hno ((v : Int) + o).toNat <;> fin_cases ho <;> omega

theorem c8_verification_window_witness :
    2 ≤ 2
    ∧ ((∀ t : Nat, 2 ≤ t + 2 → t ≤ 2 + 6 →
         verify_signup_code_with [] (((2 : Nat) : Int) * 60)
           (generate_signup_code [] (t * 60)) = .ok true)
       ∧ (∀ token : String,
           (∀ m : Nat, 2 ≤ m + 2 → m ≤ 2 + 6 →
             token ≠ format06x (signupCodeAtMinute [] m)) →
           verify_signup_code_with [] (((2 : Nat) : Int) * 60) token = .ok false)) :=
  ⟨by decide, c8_verification_window [] 2 (by decide)⟩

/-- C9: running the populate-courses upsert twice with the same timetable
items leaves exactly the state of running it once — the same `Course`
documents and the same `user.courses` list: a slot string is appended to
`known_slots` only if absent, `teacher_name` is set only if unset, and a
course id joins `user.courses` only if not already present. -/
theorem c9_populate_courses_idempotent (items : List TTItem)
    (s : List CourseDoc × List String) :
    populate_user_courses items true (populate_user_courses items true s) =
      populate_user_courses items true s := by
  unfold populate_user_courses
  rw [foldl_popStep, foldl_popStep]
  rw [foldl_dbStep_absorbed items (items.foldl dbStep s.1)
        (absorbed_foldl_all items s.1)]
  simp

theorem c10_found_test_always_finished_witness :
    (testFillForm (some (⟨false, true, none, 0⟩ : FormFillingTestDoc Nat)) 0 5
       (.raises 9)).1 = some ⟨true, false, some 5, 9⟩
    ∧ ((⟨true, false, some 5, 9⟩ : FormFillingTestDoc Nat).is_finished = true
       ∧ (⟨true, false, some 5, 9⟩ : FormFillingTestDoc Nat).in_progress = false) :=
  ⟨by decide, c10_found_test_always_finished ⟨false, true, none, 0⟩ 0 5 (.raises 9) _ (by decide)⟩

end Nffu
